import Mathlib

/-!
Shallow embedding of `heat/engine/template_common.py` (class `CommonTemplate`):
schema validation of resource-definition snippets and lazy, memoized resolution
of named template conditions, together with propagation of resolved conditions
to output definitions.

Python values that flow through this core (condition definitions, resolved
condition values, snippet fields) are modelled by the inductive `Value`.
Mappings (Python dicts) are modelled as insertion-ordered association lists.
The template instance is the structure `Template`, carrying the dialect
override points (`get_condition_definitions`, `has_condition_section`), the
external function-evaluation subsystem as an opaque evaluator field, and the
memo cell `_conditions`. Stateful methods return the updated template
explicitly; Python exceptions are modelled with `Except HeatError`.
-/

namespace Heat

/-- A Python value as seen by this core: literal booleans, strings, integers,
`None`, lists, mappings, or an unresolved intrinsic-function expression tree
(opaque to this core, evaluated by the external subsystem). -/
inductive Value where
  | vbool (b : Bool)
  | vstr (s : String)
  | vint (n : Int)
  | vnone
  | vlist (elems : List Value)
  | vmap (entries : List (String × Value))
  | vexpr (fn : String) (args : List Value)

/-- The runtime type tag of a value, for `isinstance`-style checks. -/
inductive PyType where
  | pbool
  | pstr
  | pint
  | pnone
  | plist
  | pmap
  | pexpr
deriving DecidableEq

def Value.typeOf : Value → PyType
  | .vbool _ => .pbool
  | .vstr _ => .pstr
  | .vint _ => .pint
  | .vnone => .pnone
  | .vlist _ => .plist
  | .vmap _ => .pmap
  | .vexpr _ _ => .pexpr

/-- `isinstance(v, bool)` of the Python source. -/
def Value.isBool : Value → Bool
  | .vbool _ => true
  | _ => false

/-- Python truthiness (`if not cd:`): `False`, `0`, `""`, `None` and empty
containers are falsy; everything else (including expression objects) is
truthy. -/
def Value.truthy : Value → Bool
  | .vbool b => b
  | .vstr s => !(s == "")
  | .vint n => !(n == 0)
  | .vnone => false
  | .vlist elems => !elems.isEmpty
  | .vmap entries => !entries.isEmpty
  | .vexpr _ _ => true

/-- `isinstance(v, valid_types)` against a set of allowed type tags. -/
def isinstanceOf (v : Value) (valid_types : List PyType) : Bool :=
  valid_types.contains v.typeOf

/-- A Python dict with string keys, as an insertion-ordered association
list. -/
abbrev AList := List (String × Value)

/-- `data[key]` lookup returning `none` when the key is absent
(`key in data` is `(lookupKey key data).isSome`). -/
def lookupKey (key : String) : List (String × Value) → Option Value
  | [] => none
  | (k, v) :: rest => if k = key then some v else lookupKey key rest

/-- `data[key] = v`: replace the value at an existing key in place, or append
the new key at the end (Python dicts preserve insertion order). -/
def setKey (key : String) (v : Value) : List (String × Value) → List (String × Value)
  | [] => [(key, v)]
  | (k, w) :: rest => if k = key then (key, v) :: rest else (k, w) :: setKey key v rest

/-- The errors this core raises or propagates.  `typeError` is the
`TypeError` of `validate_resource_key_type`; `keyError` a Python dict
`KeyError`; the two `invalidCondition*` constructors are
`exception.InvalidConditionDefinition` / `exception.InvalidConditionReference`
with their keyword payloads; `externalError` stands for an opaque failure of
the external function-evaluation subsystem, propagated unchanged. -/
inductive HeatError where
  | typeError (rsrc_name key typename : String)
  | keyError (key : String)
  | invalidConditionDefinition (cd : String) (definition : Value)
  | invalidConditionReference (cd : Value) (path : String)
  | externalError (msg : String)

/-- Modelled from the spec: the path-key string constants (`resources`,
`outputs`, `condition`, `value`) are class attributes of the concrete template
dialects, which are outside this source slice; the spec fixes them as the
stable identifiers `resources`, `outputs`, `condition`, `value`. -/
def RESOURCES : String := "resources"

def OUTPUTS : String := "outputs"

def CONDITION : String := "condition"

def RES_CONDITION : String := "condition"

def OUTPUT_CONDITION : String := "condition"

def OUTPUT_VALUE : String := "value"

/-- `'.'.join(parts)` of the Python source. -/
def joinDot : List String → String
  | [] => ""
  | [s] => s
  | s :: rest => s ++ "." ++ joinDot rest

/-- A `CommonTemplate` instance.  `condDefs` is the dialect override
`get_condition_definitions()` (default `{}`); `hasConditionSection` is the
dialect override `has_condition_section(snippet)` (default `fun _ => false`);
`evalCond` is the external function-evaluation subsystem
(`function.resolve(self.parse_condition(stack, cd_value))`), opaque to this
core and allowed to return any value or fail; `conditionsCache` is the memo
cell `self._conditions`, `none` meaning the Python `None`. -/
structure Template (Stack : Type) where
  condDefs : List (String × Value)
  hasConditionSection : AList → Bool
  evalCond : Stack → Value → Except HeatError Value
  conditionsCache : Option (List (String × Value))

/-- The loop body of `resolve_conditions`: values that are already literal
booleans are copied through; every other value is handed to the external
evaluator, whose failure aborts the whole call. -/
def resolveCdList {Stack : Type} (f : Stack → Value → Except HeatError Value)
    (stack : Stack) : List (String × Value) → Except HeatError (List (String × Value))
  | [] => .ok []
  | (k, v) :: rest =>
    if !v.isBool then
      match f stack v with
      | .error e => .error e
      | .ok r =>
        match resolveCdList f stack rest with
        | .error e => .error e
        | .ok rest' => .ok ((k, r) :: rest')
    else
      match resolveCdList f stack rest with
      | .error e => .error e
      | .ok rest' => .ok ((k, v) :: rest')

/-- `resolve_conditions(self, stack)`. -/
def resolve_conditions {Stack : Type} (t : Template Stack) (stack : Stack) :
    Except HeatError (List (String × Value)) :=
  resolveCdList t.evalCond stack t.condDefs

/-- The loop of `validate_condition_definitions`: raise
`InvalidConditionDefinition` at the first non-boolean resolved value. -/
def checkCdValues : List (String × Value) → Except HeatError Unit
  | [] => .ok ()
  | (k, v) :: rest =>
    if !v.isBool then .error (.invalidConditionDefinition k v)
    else checkCdValues rest

/-- `validate_condition_definitions(self, stack)` (the `if resolved_cds:`
guard skips the loop for an empty/falsy mapping). -/
def validate_condition_definitions {Stack : Type} (t : Template Stack) (stack : Stack) :
    Except HeatError Unit :=
  match resolve_conditions t stack with
  | .error e => .error e
  | .ok resolved_cds =>
    if !resolved_cds.isEmpty then checkCdValues resolved_cds else .ok ()

/-- `conditions(self, stack)`: memoized accessor over `self._conditions`.
Returns the result together with the updated template instance; on failure
the instance is returned unchanged (the Python assignment never executes). -/
def conditions {Stack : Type} (t : Template Stack) (stack : Stack) :
    Except HeatError (List (String × Value)) × Template Stack :=
  match t.conditionsCache with
  | some cds => (.ok cds, t)
  | none =>
    match resolve_conditions t stack with
    | .ok cds => (.ok cds, { t with conditionsCache := some cds })
    | .error e => (.error e, t)

/-- `cd_key not in cds` for a dict keyed by strings: a non-string key is never
present. -/
def keyIn (cdKey : Value) (cds : List (String × Value)) : Bool :=
  match cdKey with
  | .vstr s => (lookupKey s cds).isSome
  | _ => false

/-- `cds[cd_key]` (meaningful only when `keyIn cdKey cds`). -/
def getVal (cdKey : Value) (cds : List (String × Value)) : Value :=
  match cdKey with
  | .vstr s => (lookupKey s cds).getD .vnone
  | _ => .vnone

/-- `get_condition(self, snippet, stack, path='')`. -/
def get_condition {Stack : Type} (t : Template Stack) (snippet : AList) (stack : Stack)
    (path : String) : Except HeatError Value × Template Stack :=
  if t.hasConditionSection snippet then
    match lookupKey CONDITION snippet with
    | none => (.error (.keyError CONDITION), t)
    | some cdKey =>
      match conditions t stack with
      | (.error e, t') => (.error e, t')
      | (.ok cds, t') =>
        if !keyIn cdKey cds then
          (.error (.invalidConditionReference cdKey path), t')
        else
          (.ok (getVal cdKey cds), t')
  else
    (.ok (.vbool true), t)

/-- `get_res_condition(self, stack, res_data, res_name)`. -/
def get_res_condition {Stack : Type} (t : Template Stack) (stack : Stack)
    (res_data : AList) (res_name : String) : Except HeatError Value × Template Stack :=
  let path := if t.hasConditionSection res_data
    then joinDot [RESOURCES, res_name, RES_CONDITION]
    else ""
  get_condition t res_data stack path

/-- `get_output_condition(self, stack, o_data, o_key)`. -/
def get_output_condition {Stack : Type} (t : Template Stack) (stack : Stack)
    (o_data : AList) (o_key : String) : Except HeatError Value × Template Stack :=
  let path := joinDot [OUTPUTS, o_key, OUTPUT_CONDITION]
  get_condition t o_data stack path

/-- `validate_resource_key_type(cls, key, valid_types, typename, rsrc_name,
rsrc_data)`. -/
def validate_resource_key_type (key : String) (valid_types : List PyType)
    (typename rsrc_name : String) (rsrc_data : AList) : Except HeatError Bool :=
  match lookupKey key rsrc_data with
  | some v =>
    if !isinstanceOf v valid_types then
      .error (.typeError rsrc_name key typename)
    else
      .ok true
  | none => .ok false

/-- The loop of `parse_outputs_conditions` over the (already copied) output
entries: for each entry whose snippet carries a condition section, resolve the
condition via `get_output_condition`, overwrite the snippet's condition field
with the resolved value, and null the value field when the resolved value is
falsy.  Failures abort the whole call; the template is threaded because
`conditions(stack)` may populate the memo cell. -/
def parseOutputsGo {Stack : Type} (stack : Stack) :
    Template Stack → List (String × AList) →
    Except HeatError (List (String × AList)) × Template Stack
  | t, [] => (.ok [], t)
  | t, (key, snippet) :: rest =>
    if t.hasConditionSection snippet then
      match get_output_condition t stack snippet key with
      | (.error e, t') => (.error e, t')
      | (.ok cd, t') =>
        let snippet1 := setKey OUTPUT_CONDITION cd snippet
        let snippet2 := if !cd.truthy then setKey OUTPUT_VALUE .vnone snippet1 else snippet1
        match parseOutputsGo stack t' rest with
        | (.error e, t'') => (.error e, t'')
        | (.ok rest', t'') => (.ok ((key, snippet2) :: rest'), t'')
    else
      match parseOutputsGo stack t rest with
      | (.error e, t'') => (.error e, t'')
      | (.ok rest', t'') => (.ok ((key, snippet) :: rest'), t'')

/-- `parse_outputs_conditions(self, outputs, stack)` on the values of the
mappings involved.  In Lean the association lists are immutable values, so the
`copy.deepcopy` is the identity on this representation; the aliasing content
of the deep copy is modelled separately by `parse_outputs_conditions_heap`
over an explicit object store. -/
def parse_outputs_conditions {Stack : Type} (t : Template Stack)
    (outputs : List (String × AList)) (stack : Stack) :
    Except HeatError (List (String × AList)) × Template Stack :=
  let copy_outputs := outputs
  parseOutputsGo stack t copy_outputs

/-! ### Object store model of `copy.deepcopy`

Python mutates the copied snippet dicts in place.  To state what the deep
copy buys (the returned mapping shares no snippet object with the input, and
the input objects are left untouched), snippets are placed in an explicit
store addressed by `Nat` references: the outputs dict is a list of
`(key, ref)` pairs and each ref points at a snippet association list. -/

/-- A store of snippet objects.  `cells` maps references to snippet contents;
every allocated reference is `< next`. -/
structure Heap where
  cells : List (Nat × AList)
  next : Nat

def lookupRef (r : Nat) : List (Nat × AList) → Option AList
  | [] => none
  | (r', s) :: rest => if r' = r then some s else lookupRef r rest

def setRef (r : Nat) (s : AList) : List (Nat × AList) → List (Nat × AList)
  | [] => [(r, s)]
  | (r', s') :: rest => if r' = r then (r, s) :: rest else (r', s') :: setRef r s rest

def Heap.lookup (h : Heap) (r : Nat) : Option AList :=
  lookupRef r h.cells

/-- In-place mutation of the snippet object at `r`. -/
def Heap.update (h : Heap) (r : Nat) (s : AList) : Heap :=
  ⟨setRef r s h.cells, h.next⟩

/-- Allocate a fresh snippet object. -/
def Heap.alloc (h : Heap) (s : AList) : Nat × Heap :=
  (h.next, ⟨h.cells ++ [(h.next, s)], h.next + 1⟩)

/-- `copy.deepcopy(outputs)`: a fresh outputs dict whose entries point at
freshly allocated copies of every snippet object. -/
def deepcopyOutputs (h : Heap) : List (String × Nat) → List (String × Nat) × Heap
  | [] => ([], h)
  | (key, r) :: rest =>
    let s := (h.lookup r).getD []
    let (r', h1) := h.alloc s
    let (rest', h2) := deepcopyOutputs h1 rest
    ((key, r') :: rest', h2)

/-- The loop of `parse_outputs_conditions` acting on the copied snippet
objects in the store: `snippet[OUTPUT_CONDITION] = cd` and
`snippet[OUTPUT_VALUE] = None` are in-place updates of the object at the
copied reference. -/
def parseOutputsGoHeap {Stack : Type} (stack : Stack) :
    Template Stack → Heap → List (String × Nat) →
    Except HeatError Unit × Heap × Template Stack
  | t, h, [] => (.ok (), h, t)
  | t, h, (key, r) :: rest =>
    let snippet := (h.lookup r).getD []
    if t.hasConditionSection snippet then
      match get_output_condition t stack snippet key with
      | (.error e, t') => (.error e, h, t')
      | (.ok cd, t') =>
        let snippet1 := setKey OUTPUT_CONDITION cd snippet
        let snippet2 := if !cd.truthy then setKey OUTPUT_VALUE .vnone snippet1 else snippet1
        parseOutputsGoHeap stack t' (h.update r snippet2) rest
    else
      parseOutputsGoHeap stack t h rest

/-- `parse_outputs_conditions(self, outputs, stack)` over the object store:
deep-copy the outputs dict, transform the copied snippet objects in place,
return the copy.  The store is returned also on failure (the original objects
survive a raised exception untouched). -/
def parse_outputs_conditions_heap {Stack : Type} (t : Template Stack) (h : Heap)
    (outputs : List (String × Nat)) (stack : Stack) :
    Except HeatError (List (String × Nat)) × Heap × Template Stack :=
  let (copy_outputs, h1) := deepcopyOutputs h outputs
  match parseOutputsGoHeap stack t h1 copy_outputs with
  | (.ok (), h2, t') => (.ok copy_outputs, h2, t')
  | (.error e, h2, t') => (.error e, h2, t')

/-! ### Concrete template instances used for witnesses and counterexamples -/

/-- A template (over `Nat` stacks) with a single condition whose expression
the external evaluator resolves to the string `"oops"`. -/
def stringCondTemplate : Template Nat :=
  ⟨[("cd1", .vexpr "equals" [.vstr "a", .vstr "b"])], fun _ => false,
    fun _ _ => .ok (.vstr "oops"), none⟩

/-- A template with one literal-boolean condition and one expression that the
evaluator resolves to a boolean. -/
def boolCondTemplate : Template Nat :=
  ⟨[("lit", .vbool true), ("expr", .vexpr "not" [.vbool true])], fun _ => false,
    fun _ _ => .ok (.vbool false), none⟩

/-- A template whose evaluator always fails with an opaque external error. -/
def failingCondTemplate : Template Nat :=
  ⟨[("lit", .vbool true), ("bad", .vexpr "boom" [])], fun _ => false,
    fun _ _ => .error (.externalError "evaluation failed"), none⟩

/-- A template with a pre-populated condition cache, a dialect predicate that
recognizes a `condition` key in a snippet, and an evaluator that fails if it
is ever consulted. -/
def cachedCondTemplate (cds : List (String × Value)) : Template Nat :=
  ⟨[], fun snippet => (lookupKey CONDITION snippet).isSome,
    fun _ _ => .error (.externalError "must not be called"), some cds⟩

/-- A store holding one snippet object at reference 0. -/
def sampleHeap : Heap :=
  ⟨[(0, [("value", .vstr "x"), ("condition", .vstr "condA")])], 1⟩

/-- An outputs dict with one entry pointing at the snippet object 0. -/
def sampleOuts : List (String × Nat) := [("out1", 0)]

/-! ### Helper lemmas -/

theorem lookupKey_setKey_self (key : String) (v : Value) (l : List (String × Value)) :
    lookupKey key (setKey key v l) = some v := by
  induction l with
  | nil => simp [setKey, lookupKey]
  | cons kw rest ih =>
    obtain ⟨k, w⟩ := kw
    by_cases hk : k = key
    · simp [setKey, hk, lookupKey]
    · simp [setKey, hk, lookupKey, ih]

theorem lookupKey_setKey_ne (key key' : String) (v : Value) (l : List (String × Value))
    (h : key' ≠ key) : lookupKey key' (setKey key v l) = lookupKey key' l := by
  induction l with
  | nil => simp [setKey, lookupKey, Ne.symm h]
  | cons kw rest ih =>
    obtain ⟨k, w⟩ := kw
    by_cases hk : k = key
    · subst hk
      simp [setKey, lookupKey, Ne.symm h]
    · simp [setKey, hk, lookupKey, ih]

theorem resolveCdList_error {Stack : Type} (f : Stack → Value → Except HeatError Value)
    (stack : Stack) (l : List (String × Value)) (e : HeatError)
    (h : resolveCdList f stack l = .error e) :
    ∃ k v, (k, v) ∈ l ∧ v.isBool = false ∧ f stack v = .error e := by
  induction l with
  | nil => simp [resolveCdList] at h
  | cons kv rest ih =>
    obtain ⟨k, v⟩ := kv
    simp only [resolveCdList] at h
    cases hb : v.isBool with
    | false =>
      rw [hb] at h
      simp only [Bool.not_false, if_true] at h
      cases hf : f stack v with
      | error e' =>
        rw [hf] at h
        cases h
        exact ⟨k, v, List.mem_cons_self _ _, hb, hf⟩
      | ok r =>
        rw [hf] at h
        cases hr : resolveCdList f stack rest with
        | error e' =>
          rw [hr] at h
          cases h
          obtain ⟨k', v', hmem, hb', hf'⟩ := ih hr
          exact ⟨k', v', List.mem_cons_of_mem _ hmem, hb', hf'⟩
        | ok rest' => rw [hr] at h; cases h
    | true =>
      rw [hb] at h
      simp only [Bool.not_true, if_false] at h
      cases hr : resolveCdList f stack rest with
      | error e' =>
        rw [hr] at h
        cases h
        obtain ⟨k', v', hmem, hb', hf'⟩ := ih hr
        exact ⟨k', v', List.mem_cons_of_mem _ hmem, hb', hf'⟩
      | ok rest' => rw [hr] at h; cases h

theorem resolveCdList_booleans {Stack : Type} (f : Stack → Value → Except HeatError Value)
    (stack : Stack) (l m : List (String × Value))
    (hev : ∀ v r, f stack v = .ok r → r.isBool = true)
    (h : resolveCdList f stack l = .ok m) :
    ∀ kv ∈ m, kv.2.isBool = true := by
  induction l generalizing m with
  | nil =>
    simp only [resolveCdList] at h
    cases h
    intro kv hkv
    cases hkv
  | cons kv rest ih =>
    obtain ⟨k, v⟩ := kv
    simp only [resolveCdList] at h
    cases hb : v.isBool with
    | false =>
      rw [hb] at h
      simp only [Bool.not_false, if_true] at h
      cases hf : f stack v with
      | error e => rw [hf] at h; cases h
      | ok r =>
        rw [hf] at h
        cases hr : resolveCdList f stack rest with
        | error e => rw [hr] at h; cases h
        | ok rest' =>
          rw [hr] at h
          cases h
          intro kv hkv
          rcases List.mem_cons.mp hkv with hkv | hkv
          · cases hkv; exact hev v r hf
          · exact ih rest' hr kv hkv
    | true =>
      rw [hb] at h
      simp only [Bool.not_true, if_false] at h
      cases hr : resolveCdList f stack rest with
      | error e => rw [hr] at h; cases h
      | ok rest' =>
        rw [hr] at h
        cases h
        intro kv hkv
        rcases List.mem_cons.mp hkv with hkv | hkv
        · cases hkv; exact hb
        · exact ih rest' hr kv hkv

theorem checkCdValues_ok_iff (l : List (String × Value)) :
    checkCdValues l = .ok () ↔ ∀ kv ∈ l, kv.2.isBool = true := by
  induction l with
  | nil => simp [checkCdValues]
  | cons kv rest ih =>
    obtain ⟨k, v⟩ := kv
    cases hb : v.isBool with
    | false => simp [checkCdValues, hb]
    | true => simp [checkCdValues, hb, ih]

theorem checkCdValues_error (l : List (String × Value)) (e : HeatError)
    (h : checkCdValues l = .error e) :
    ∃ k v, (k, v) ∈ l ∧ v.isBool = false ∧ e = .invalidConditionDefinition k v := by
  induction l with
  | nil => simp [checkCdValues] at h
  | cons kv rest ih =>
    obtain ⟨k, v⟩ := kv
    simp only [checkCdValues] at h
    cases hb : v.isBool with
    | false =>
      rw [hb] at h
      simp only [Bool.not_false, if_true] at h
      cases h
      exact ⟨k, v, List.mem_cons_self _ _, hb, rfl⟩
    | true =>
      rw [hb] at h
      simp only [Bool.not_true, if_false] at h
      obtain ⟨k', v', hmem, hb', he⟩ := ih h
      exact ⟨k', v', List.mem_cons_of_mem _ hmem, hb', he⟩

theorem joinDot_resources (n : String) :
    joinDot [RESOURCES, n, RES_CONDITION] = "resources." ++ n ++ ".condition" := by
  apply String.ext
  simp [joinDot, RESOURCES, RES_CONDITION, String.data_append]

theorem joinDot_outputs (n : String) :
    joinDot [OUTPUTS, n, OUTPUT_CONDITION] = "outputs." ++ n ++ ".condition" := by
  apply String.ext
  simp [joinDot, OUTPUTS, OUTPUT_CONDITION, String.data_append]

/-! ### Claim theorems -/

/-- C1 (counterexample): the claim that every conditions-cache entry is a
boolean for every result the external evaluator may return is false:
with an evaluator that resolves the single condition expression of
`stringCondTemplate` to the string `"oops"`, both the mapping returned by
`conditions` and the populated cache hold that non-boolean string. -/
theorem conditions_cache_nonbool_counterexample :
    (conditions stringCondTemplate 0).1 = .ok [("cd1", Value.vstr "oops")] ∧
    (conditions stringCondTemplate 0).2.conditionsCache =
      some [("cd1", Value.vstr "oops")] ∧
    Value.isBool (Value.vstr "oops") = false :=
  ⟨rfl, rfl, rfl⟩

/-- C1 (amended): every entry of the conditions cache populated by
`conditions(stack)` is a boolean provided the external evaluator only returns
booleans; literal-boolean definitions are copied through and every other
entry is exactly an evaluator result. -/
theorem conditions_cache_boolean {Stack : Type} (t : Template Stack) (stack : Stack)
    (m : List (String × Value)) (t' : Template Stack)
    (hev : ∀ s v r, t.evalCond s v = .ok r → r.isBool = true)
    (hcache : t.conditionsCache = none)
    (h : conditions t stack = (.ok m, t')) :
    t'.conditionsCache = some m ∧ ∀ kv ∈ m, kv.2.isBool = true := by
  unfold conditions at h
  rw [hcache] at h
  cases hr : resolve_conditions t stack with
  | ok cds =>
    rw [hr] at h
    rw [Prod.mk.injEq] at h
    obtain ⟨h1, h2⟩ := h
    cases h1
    cases h2
    exact ⟨rfl, resolveCdList_booleans t.evalCond stack t.condDefs _ (hev stack) hr⟩
  | error e =>
    rw [hr] at h
    rw [Prod.mk.injEq] at h
    exact Except.noConfusion h.1

/-- C1 witness. -/
theorem conditions_cache_boolean_witness :
    (conditions boolCondTemplate 0).2.conditionsCache =
      some [("lit", Value.vbool true), ("expr", Value.vbool false)] ∧
    ∀ kv ∈ [("lit", Value.vbool true), ("expr", Value.vbool false)], kv.2.isBool = true :=
  conditions_cache_boolean boolCondTemplate 0
    [("lit", Value.vbool true), ("expr", Value.vbool false)]
    ⟨[("lit", .vbool true), ("expr", .vexpr "not" [.vbool true])], fun _ => false,
      fun _ _ => .ok (.vbool false), some [("lit", .vbool true), ("expr", .vbool false)]⟩
    (fun _ _ r h => by cases h; rfl) rfl rfl

/-- C2: `conditions(stack)` is memoized per template instance: with an empty
cache it invokes `resolve_conditions` and stores the result in the instance;
with a populated cache it returns the identical cached mapping and leaves the
instance unchanged, for an arbitrary later stack argument and an arbitrary
evaluator (so neither `resolve_conditions` nor the external subsystem can be
consulted again). -/
theorem conditions_memoized {Stack : Type} (defs : List (String × Value))
    (hcs : AList → Bool) (f g : Stack → Value → Except HeatError Value)
    (m : List (String × Value)) (s1 s2 : Stack)
    (h : resolve_conditions ⟨defs, hcs, f, none⟩ s1 = .ok m) :
    conditions ⟨defs, hcs, f, none⟩ s1 = (.ok m, ⟨defs, hcs, f, some m⟩) ∧
    conditions ⟨defs, hcs, g, some m⟩ s2 = (.ok m, ⟨defs, hcs, g, some m⟩) := by
  constructor
  · unfold conditions
    rw [h]
  · rfl

/-- C2 witness. -/
theorem conditions_memoized_witness :
    conditions ⟨[("cd", Value.vbool true)], fun _ => false,
        fun (_ : Nat) _ => Except.ok Value.vnone, none⟩ 0 =
      (.ok [("cd", Value.vbool true)],
        ⟨[("cd", Value.vbool true)], fun _ => false,
          fun _ _ => Except.ok Value.vnone, some [("cd", Value.vbool true)]⟩) ∧
    conditions ⟨[("cd", Value.vbool true)], fun _ => false,
        fun (_ : Nat) _ => Except.error (HeatError.externalError "must not be called"),
        some [("cd", Value.vbool true)]⟩ 7 =
      (.ok [("cd", Value.vbool true)],
        ⟨[("cd", Value.vbool true)], fun _ => false,
          fun _ _ => Except.error (HeatError.externalError "must not be called"),
          some [("cd", Value.vbool true)]⟩) :=
  conditions_memoized [("cd", Value.vbool true)] (fun _ => false)
    (fun _ _ => Except.ok Value.vnone)
    (fun _ _ => Except.error (HeatError.externalError "must not be called"))
    [("cd", Value.vbool true)] 0 7 rfl

/-- C3: when the external evaluator fails during `resolve_conditions`, the
whole call aborts with exactly the evaluator's error (it is raised on some
non-boolean definition entry), and `conditions` returns that error leaving
the template instance — in particular its condition cache, still `none` —
unchanged: no partially computed condition is cached. -/
theorem resolve_conditions_error_propagation {Stack : Type}
    (defs : List (String × Value)) (hcs : AList → Bool)
    (f : Stack → Value → Except HeatError Value) (stack : Stack) (e : HeatError)
    (h : resolve_conditions ⟨defs, hcs, f, none⟩ stack = .error e) :
    (∃ k v, (k, v) ∈ defs ∧ v.isBool = false ∧ f stack v = .error e) ∧
    conditions ⟨defs, hcs, f, none⟩ stack = (.error e, ⟨defs, hcs, f, none⟩) := by
  constructor
  · exact resolveCdList_error f stack defs e h
  · unfold conditions
    rw [h]

/-- C3 witness. -/
theorem resolve_conditions_error_propagation_witness :
    (∃ k v, (k, v) ∈ [("lit", Value.vbool true), ("bad", Value.vexpr "boom" [])] ∧
      v.isBool = false ∧
      failingCondTemplate.evalCond 0 v = .error (.externalError "evaluation failed")) ∧
    conditions failingCondTemplate 0 =
      (.error (.externalError "evaluation failed"), failingCondTemplate) := by
  exact resolve_conditions_error_propagation
    [("lit", Value.vbool true), ("bad", Value.vexpr "boom" [])] (fun _ => false)
    (fun _ _ => Except.error (HeatError.externalError "evaluation failed")) 0
    (.externalError "evaluation failed") rfl

/-- C4: when `resolve_conditions` succeeds with mapping `m`,
`validate_condition_definitions` succeeds exactly when every resolved value
in `m` is a boolean, and any error it raises is
`InvalidConditionDefinition` carrying the offending condition's name and its
non-boolean resolved value; `resolve_conditions` itself returned the
non-boolean value inside `m` without raising. -/
theorem validate_condition_definitions_spec {Stack : Type} (t : Template Stack)
    (stack : Stack) (m : List (String × Value))
    (h : resolve_conditions t stack = .ok m) :
    (validate_condition_definitions t stack = .ok () ↔ ∀ kv ∈ m, kv.2.isBool = true) ∧
    (∀ e, validate_condition_definitions t stack = .error e →
      ∃ k v, (k, v) ∈ m ∧ v.isBool = false ∧ e = .invalidConditionDefinition k v) := by
  unfold validate_condition_definitions
  rw [h]
  cases hm : m.isEmpty with
  | true =>
    rw [List.isEmpty_iff] at hm
    subst hm
    simp
  | false =>
    simp only [hm, Bool.not_false, if_true]
    exact ⟨checkCdValues_ok_iff m, fun e he => checkCdValues_error m e he⟩

/-- C4 witness: a condition resolving to a string is returned by
`resolve_conditions` without complaint, and `validate_condition_definitions`
rejects it with `InvalidConditionDefinition`. -/
theorem validate_condition_definitions_spec_witness :
    resolve_conditions stringCondTemplate 0 = .ok [("cd1", Value.vstr "oops")] ∧
    validate_condition_definitions stringCondTemplate 0 =
      .error (.invalidConditionDefinition "cd1" (Value.vstr "oops")) ∧
    ∃ k v, (k, v) ∈ [("cd1", Value.vstr "oops")] ∧ v.isBool = false ∧
      HeatError.invalidConditionDefinition "cd1" (Value.vstr "oops") =
        .invalidConditionDefinition k v :=
  ⟨rfl, rfl,
    (validate_condition_definitions_spec stringCondTemplate 0
      [("cd1", Value.vstr "oops")] rfl).2
      (.invalidConditionDefinition "cd1" (Value.vstr "oops")) rfl⟩

/-- C5: `validate_resource_key_type` returns `false` and raises nothing when
the key is absent, returns `true` and raises nothing when the key is present
with a value whose type matches one of the allowed types, and raises
`TypeError` carrying the resource name, the key and the expected type name
when the key is present with a non-matching value. -/
theorem validate_resource_key_type_spec (key : String) (valid_types : List PyType)
    (typename rsrc_name : String) (rsrc_data : AList) :
    (lookupKey key rsrc_data = none →
      validate_resource_key_type key valid_types typename rsrc_name rsrc_data =
        .ok false) ∧
    (∀ v, lookupKey key rsrc_data = some v → isinstanceOf v valid_types = true →
      validate_resource_key_type key valid_types typename rsrc_name rsrc_data =
        .ok true) ∧
    (∀ v, lookupKey key rsrc_data = some v → isinstanceOf v valid_types = false →
      validate_resource_key_type key valid_types typename rsrc_name rsrc_data =
        .error (.typeError rsrc_name key typename)) := by
  refine ⟨fun h => ?_, fun v h hv => ?_, fun v h hv => ?_⟩
  · simp [validate_resource_key_type, h]
  · simp [validate_resource_key_type, h, hv]
  · simp [validate_resource_key_type, h, hv]

/-- C5 witness. -/
theorem validate_resource_key_type_spec_witness :
    validate_resource_key_type "type" [PyType.pstr] "string" "server" [] = .ok false ∧
    validate_resource_key_type "type" [PyType.pstr] "string" "server"
      [("type", Value.vstr "OS::Nova::Server")] = .ok true ∧
    validate_resource_key_type "type" [PyType.pstr] "string" "server"
      [("type", Value.vint 3)] = .error (.typeError "server" "type" "string") :=
  ⟨(validate_resource_key_type_spec "type" [PyType.pstr] "string" "server" []).1 rfl,
    (validate_resource_key_type_spec "type" [PyType.pstr] "string" "server"
      [("type", Value.vstr "OS::Nova::Server")]).2.1 (Value.vstr "OS::Nova::Server") rfl rfl,
    (validate_resource_key_type_spec "type" [PyType.pstr] "string" "server"
      [("type", Value.vint 3)]).2.2 (Value.vint 3) rfl rfl⟩

/-- C9: `get_condition` returns the Python `True` and raises nothing for a
snippet without a condition section; for a snippet whose condition section
names a condition present in the resolved mapping it returns exactly the
resolved value. -/
theorem get_condition_spec {Stack : Type} (t : Template Stack) (snippet : AList)
    (stack : Stack) (path : String) :
    (t.hasConditionSection snippet = false →
      get_condition t snippet stack path = (.ok (.vbool true), t)) ∧
    (∀ name v cds t', t.hasConditionSection snippet = true →
      lookupKey CONDITION snippet = some (.vstr name) →
      conditions t stack = (.ok cds, t') →
      lookupKey name cds = some v →
      get_condition t snippet stack path = (.ok v, t')) := by
  constructor
  · intro h
    simp [get_condition, h]
  · intro name v cds t' hcs hk hcond hv
    simp only [get_condition, hcs, if_true, hk]
    rw [hcond]
    simp [keyIn, getVal, hv]

/-- C9 witness. -/
theorem get_condition_spec_witness :
    get_condition (cachedCondTemplate [("condA", Value.vbool false)]) [] 0 "" =
      (.ok (.vbool true), cachedCondTemplate [("condA", Value.vbool false)]) ∧
    get_condition (cachedCondTemplate [("condA", Value.vbool false)])
        [("condition", Value.vstr "condA")] 0 "p" =
      (.ok (Value.vbool false), cachedCondTemplate [("condA", Value.vbool false)]) :=
  ⟨(get_condition_spec (cachedCondTemplate [("condA", Value.vbool false)]) [] 0 "").1 rfl,
    (get_condition_spec (cachedCondTemplate [("condA", Value.vbool false)])
        [("condition", Value.vstr "condA")] 0 "p").2 "condA" (Value.vbool false)
      [("condA", Value.vbool false)] (cachedCondTemplate [("condA", Value.vbool false)])
      rfl rfl rfl rfl⟩

/-- C8: a snippet whose condition section names a condition absent from the
resolved mapping makes `get_res_condition` / `get_output_condition` raise
`InvalidConditionReference` carrying the condition name and the path
`resources.<res_name>.condition` (resp. `outputs.<o_key>.condition`). -/
theorem get_condition_invalid_reference {Stack : Type} (t : Template Stack)
    (snippet : AList) (stack : Stack) (name res_name o_key : String)
    (cds : List (String × Value)) (t' : Template Stack)
    (hcs : t.hasConditionSection snippet = true)
    (hk : lookupKey CONDITION snippet = some (.vstr name))
    (hcond : conditions t stack = (.ok cds, t'))
    (habs : lookupKey name cds = none) :
    get_res_condition t stack snippet res_name =
      (.error (.invalidConditionReference (.vstr name)
        ("resources." ++ res_name ++ ".condition")), t') ∧
    get_output_condition t stack snippet o_key =
      (.error (.invalidConditionReference (.vstr name)
        ("outputs." ++ o_key ++ ".condition")), t') := by
  have hpath : ∀ p, get_condition t snippet stack p =
      (.error (.invalidConditionReference (.vstr name) p), t') := by
    intro p
    simp only [get_condition, hcs, if_true, hk]
    rw [hcond]
    simp [keyIn, habs]
  constructor
  · simp only [get_res_condition, hcs, if_true]
    rw [hpath, joinDot_resources]
  · simp only [get_output_condition]
    rw [hpath, joinDot_outputs]

/-- C8 witness. -/
theorem get_condition_invalid_reference_witness :
    get_res_condition (cachedCondTemplate [("condA", Value.vbool true)]) 0
        [("condition", Value.vstr "missing")] "rsrc" =
      (.error (.invalidConditionReference (Value.vstr "missing")
        "resources.rsrc.condition"), cachedCondTemplate [("condA", Value.vbool true)]) ∧
    get_output_condition (cachedCondTemplate [("condA", Value.vbool true)]) 0
        [("condition", Value.vstr "missing")] "out" =
      (.error (.invalidConditionReference (Value.vstr "missing")
        "outputs.out.condition"), cachedCondTemplate [("condA", Value.vbool true)]) := by
  exact get_condition_invalid_reference (cachedCondTemplate [("condA", Value.vbool true)])
    [("condition", Value.vstr "missing")] 0 "missing" "rsrc" "out"
    [("condA", Value.vbool true)] (cachedCondTemplate [("condA", Value.vbool true)])
    rfl rfl rfl rfl

theorem get_output_condition_eq {Stack : Type} (t : Template Stack) (stack : Stack)
    (o_data : AList) (o_key : String) :
    get_output_condition t stack o_data o_key =
      get_condition t o_data stack (joinDot [OUTPUTS, o_key, OUTPUT_CONDITION]) := rfl

theorem conditions_cached {Stack : Type} (t : Template Stack)
    (cds : List (String × Value)) (stack : Stack) (hc : t.conditionsCache = some cds) :
    conditions t stack = (.ok cds, t) := by
  unfold conditions
  rw [hc]

theorem get_condition_cached_ok {Stack : Type} (t : Template Stack) (snippet : AList)
    (stack : Stack) (path : String) (cds : List (String × Value)) (cd : Value)
    (t' : Template Stack) (hc : t.conditionsCache = some cds)
    (hcs : t.hasConditionSection snippet = true)
    (h : get_condition t snippet stack path = (.ok cd, t')) :
    t' = t ∧ ∃ n, lookupKey CONDITION snippet = some (.vstr n) ∧
      lookupKey n cds = some cd := by
  simp only [get_condition, hcs, if_true] at h
  cases hk : lookupKey CONDITION snippet with
  | none =>
    simp only [hk] at h
    rw [Prod.mk.injEq] at h
    exact Except.noConfusion h.1
  | some cdKey =>
    simp only [hk, conditions_cached t cds stack hc] at h
    cases hki : keyIn cdKey cds with
    | false =>
      simp only [hki, Bool.not_false, if_true] at h
      rw [Prod.mk.injEq] at h
      exact Except.noConfusion h.1
    | true =>
      simp only [hki, Bool.not_true, Bool.false_eq_true, if_false] at h
      rw [Prod.mk.injEq] at h
      obtain ⟨h1, h2⟩ := h
      injection h1 with h1
      cases cdKey with
      | vstr n =>
        simp only [keyIn] at hki
        obtain ⟨v, hv⟩ := Option.isSome_iff_exists.mp hki
        refine ⟨h2.symm, n, rfl, ?_⟩
        rw [hv]
        simp only [getVal, hv, Option.getD_some] at h1
        rw [h1]
      | vbool b => simp [keyIn] at hki
      | vint n => simp [keyIn] at hki
      | vnone => simp [keyIn] at hki
      | vlist l => simp [keyIn] at hki
      | vmap m => simp [keyIn] at hki
      | vexpr f a => simp [keyIn] at hki

/-- When the condition cache is populated, the output-processing loop leaves
the template unchanged and relates each input entry to its transformed
clone. -/
theorem parseOutputsGo_cached {Stack : Type} (stack : Stack)
    (cds : List (String × Value)) (t : Template Stack)
    (hc : t.conditionsCache = some cds) :
    ∀ (outputs res : List (String × AList)) (t' : Template Stack),
    parseOutputsGo stack t outputs = (.ok res, t') →
    t' = t ∧ List.Forall₂ (fun a b => b.1 = a.1 ∧
      ((t.hasConditionSection a.2 = false ∧ b.2 = a.2) ∨
       (t.hasConditionSection a.2 = true ∧ ∃ n v,
         lookupKey CONDITION a.2 = some (.vstr n) ∧
         lookupKey n cds = some v ∧
         b.2 = (if !v.truthy then
                  setKey OUTPUT_VALUE .vnone (setKey OUTPUT_CONDITION v a.2)
                else setKey OUTPUT_CONDITION v a.2)))) outputs res := by
  intro outputs
  induction outputs with
  | nil =>
    intro res t' h
    simp only [parseOutputsGo] at h
    rw [Prod.mk.injEq] at h
    obtain ⟨h1, h2⟩ := h
    injection h1 with h1
    subst h1
    exact ⟨h2.symm, List.Forall₂.nil⟩
  | cons a rest ih =>
    intro res t' h
    obtain ⟨key, snippet⟩ := a
    simp only [parseOutputsGo] at h
    cases hcs : t.hasConditionSection snippet with
    | false =>
      rw [hcs] at h
      simp only [Bool.false_eq_true, if_false] at h
      rcases hr : parseOutputsGo stack t rest with ⟨r, t''⟩
      rw [hr] at h
      cases r with
      | error e =>
        rw [Prod.mk.injEq] at h
        exact Except.noConfusion h.1
      | ok rest' =>
        rw [Prod.mk.injEq] at h
        obtain ⟨h1, h2⟩ := h
        injection h1 with h1
        subst h1
        subst h2
        obtain ⟨ht, hf⟩ := ih rest' _ hr
        exact ⟨ht, List.Forall₂.cons ⟨rfl, Or.inl ⟨hcs, rfl⟩⟩ hf⟩
    | true =>
      rw [hcs] at h
      simp only [if_true] at h
      rcases hg : get_output_condition t stack snippet key with ⟨g, t₁⟩
      rw [hg] at h
      cases g with
      | error e =>
        rw [Prod.mk.injEq] at h
        exact Except.noConfusion h.1
      | ok cd =>
        rw [get_output_condition_eq] at hg
        obtain ⟨ht₁, n, hkn, hlk⟩ :=
          get_condition_cached_ok t snippet stack _ cds cd t₁ hc hcs hg
        rw [ht₁] at h
        dsimp only at h
        rcases hr : parseOutputsGo stack t rest with ⟨r, t''⟩
        rw [hr] at h
        cases r with
        | error e =>
          rw [Prod.mk.injEq] at h
          exact Except.noConfusion h.1
        | ok rest' =>
          rw [Prod.mk.injEq] at h
          obtain ⟨h1, h2⟩ := h
          injection h1 with h1
          subst h2
          obtain ⟨ht, hf⟩ := ih rest' t'' hr
          subst h1
          refine ⟨ht, List.Forall₂.cons ⟨rfl, Or.inr ⟨hcs, n, cd, hkn, hlk, ?_⟩⟩ hf⟩
          cases htr : cd.truthy <;> simp [htr]

/-- C6: in the mapping returned by `parse_outputs_conditions`, every output
entry carrying a condition section has its condition field overwritten with
the resolved condition value; a resolved `False` nulls the entry's value
field, a resolved `True` leaves the value field unchanged. -/
theorem parse_outputs_conditions_bool_spec {Stack : Type} (t : Template Stack)
    (stack : Stack) (outputs res : List (String × AList))
    (cds : List (String × Value)) (t' : Template Stack)
    (hc : t.conditionsCache = some cds)
    (hres : parse_outputs_conditions t outputs stack = (.ok res, t')) :
    List.Forall₂ (fun a b => b.1 = a.1 ∧
      (∀ n b', t.hasConditionSection a.2 = true →
        lookupKey CONDITION a.2 = some (.vstr n) →
        lookupKey n cds = some (.vbool b') →
        lookupKey OUTPUT_CONDITION b.2 = some (.vbool b') ∧
        (b' = false → lookupKey OUTPUT_VALUE b.2 = some .vnone) ∧
        (b' = true → lookupKey OUTPUT_VALUE b.2 = lookupKey OUTPUT_VALUE a.2)))
      outputs res := by
  obtain ⟨-, hf⟩ := parseOutputsGo_cached stack cds t hc outputs res t' hres
  refine hf.imp ?_
  rintro a b ⟨hb1, hor⟩
  refine ⟨hb1, ?_⟩
  intro n b' hcs hk hv
  rcases hor with ⟨hf', -⟩ | ⟨-, n₀, v₀, hk₀, hv₀, hb2⟩
  · rw [hcs] at hf'
    cases hf'
  · have hkk := hk₀.symm.trans hk
    injection hkk with hkk
    injection hkk with hkk
    subst hkk
    have hvv := hv₀.symm.trans hv
    injection hvv with hvv
    subst hvv
    cases b' with
    | true =>
      rw [hb2]
      simp only [Value.truthy, Bool.not_true, Bool.false_eq_true, if_false]
      refine ⟨lookupKey_setKey_self OUTPUT_CONDITION (Value.vbool true) a.2, ?_, ?_⟩
      · intro hcontra
        cases hcontra
      · intro _
        exact lookupKey_setKey_ne OUTPUT_CONDITION OUTPUT_VALUE (Value.vbool true) a.2
          (by decide)
    | false =>
      rw [hb2]
      simp only [Value.truthy, Bool.not_false, if_true]
      refine ⟨?_, ?_, ?_⟩
      · rw [lookupKey_setKey_ne OUTPUT_VALUE OUTPUT_CONDITION Value.vnone _ (by decide)]
        exact lookupKey_setKey_self OUTPUT_CONDITION (Value.vbool false) a.2
      · intro _
        exact lookupKey_setKey_self OUTPUT_VALUE Value.vnone _
      · intro hcontra
        cases hcontra

/-- C6 witness: the claim's example — conditions `{"condA": false}` and
outputs `{"out1": {"value": "x", "condition": "condA"}}` produce
`{"out1": {"value": null, "condition": false}}`. -/
theorem parse_outputs_conditions_bool_spec_witness :
    parse_outputs_conditions (cachedCondTemplate [("condA", Value.vbool false)])
        [("out1", [("value", Value.vstr "x"), ("condition", Value.vstr "condA")])] 0 =
      (.ok [("out1", [("value", Value.vnone), ("condition", Value.vbool false)])],
        cachedCondTemplate [("condA", Value.vbool false)]) ∧
    List.Forall₂ (fun a b => b.1 = a.1 ∧
      (∀ n b', (cachedCondTemplate [("condA", Value.vbool false)]).hasConditionSection
          a.2 = true →
        lookupKey CONDITION a.2 = some (.vstr n) →
        lookupKey n [("condA", Value.vbool false)] = some (.vbool b') →
        lookupKey OUTPUT_CONDITION b.2 = some (.vbool b') ∧
        (b' = false → lookupKey OUTPUT_VALUE b.2 = some .vnone) ∧
        (b' = true → lookupKey OUTPUT_VALUE b.2 = lookupKey OUTPUT_VALUE a.2)))
      [("out1", [("value", Value.vstr "x"), ("condition", Value.vstr "condA")])]
      [("out1", [("value", Value.vnone), ("condition", Value.vbool false)])] :=
  ⟨rfl, parse_outputs_conditions_bool_spec (cachedCondTemplate [("condA", Value.vbool false)])
    0 [("out1", [("value", Value.vstr "x"), ("condition", Value.vstr "condA")])]
    [("out1", [("value", Value.vnone), ("condition", Value.vbool false)])]
    [("condA", Value.vbool false)] (cachedCondTemplate [("condA", Value.vbool false)])
    rfl rfl⟩

/-- C10: suppression of an output's value is decided by Python truthiness of
the resolved condition value, not by identity with the boolean `False`: for
every resolved value `v` (booleans or not), the cloned entry's condition
field becomes `v` itself, and its value field is set to `None` exactly when
`v` is falsy (when `v` is truthy the value field is untouched). -/
theorem parse_outputs_conditions_truthiness {Stack : Type} (t : Template Stack)
    (stack : Stack) (outputs res : List (String × AList))
    (cds : List (String × Value)) (t' : Template Stack)
    (hc : t.conditionsCache = some cds)
    (hres : parse_outputs_conditions t outputs stack = (.ok res, t')) :
    List.Forall₂ (fun a b => b.1 = a.1 ∧
      (∀ n v, t.hasConditionSection a.2 = true →
        lookupKey CONDITION a.2 = some (.vstr n) →
        lookupKey n cds = some v →
        lookupKey OUTPUT_CONDITION b.2 = some v ∧
        (v.truthy = false → lookupKey OUTPUT_VALUE b.2 = some .vnone) ∧
        (v.truthy = true → lookupKey OUTPUT_VALUE b.2 = lookupKey OUTPUT_VALUE a.2)))
      outputs res := by
  obtain ⟨-, hf⟩ := parseOutputsGo_cached stack cds t hc outputs res t' hres
  refine hf.imp ?_
  rintro a b ⟨hb1, hor⟩
  refine ⟨hb1, ?_⟩
  intro n v hcs hk hv
  rcases hor with ⟨hf', -⟩ | ⟨-, n₀, v₀, hk₀, hv₀, hb2⟩
  · rw [hcs] at hf'
    cases hf'
  · have hkk := hk₀.symm.trans hk
    injection hkk with hkk
    injection hkk with hkk
    subst hkk
    have hvv := hv₀.symm.trans hv
    injection hvv with hvv
    subst hvv
    cases htr : Value.truthy v₀ with
    | true =>
      rw [htr] at hb2
      simp only [Bool.not_true, Bool.false_eq_true, if_false] at hb2
      rw [hb2]
      refine ⟨lookupKey_setKey_self OUTPUT_CONDITION v₀ a.2, ?_, ?_⟩
      · intro hcontra
        cases hcontra
      · intro _
        exact lookupKey_setKey_ne OUTPUT_CONDITION OUTPUT_VALUE v₀ a.2 (by decide)
    | false =>
      rw [htr] at hb2
      simp only [Bool.not_false, if_true] at hb2
      rw [hb2]
      refine ⟨?_, ?_, ?_⟩
      · rw [lookupKey_setKey_ne OUTPUT_VALUE OUTPUT_CONDITION Value.vnone _ (by decide)]
        exact lookupKey_setKey_self OUTPUT_CONDITION v₀ a.2
      · intro _
        exact lookupKey_setKey_self OUTPUT_VALUE Value.vnone _
      · intro hcontra
        cases hcontra

/-- C10 witness: a falsy non-boolean condition value (the integer 0) nulls
the output's value, and a truthy non-boolean (a non-empty string) preserves
it; both are written into the condition field as-is. -/
theorem parse_outputs_conditions_truthiness_witness :
    parse_outputs_conditions
        (cachedCondTemplate [("condZ", Value.vint 0), ("condS", Value.vstr "yes")])
        [("o1", [("value", Value.vstr "x"), ("condition", Value.vstr "condZ")]),
         ("o2", [("value", Value.vstr "y"), ("condition", Value.vstr "condS")])] 0 =
      (.ok [("o1", [("value", Value.vnone), ("condition", Value.vint 0)]),
            ("o2", [("value", Value.vstr "y"), ("condition", Value.vstr "yes")])],
        cachedCondTemplate [("condZ", Value.vint 0), ("condS", Value.vstr "yes")]) ∧
    List.Forall₂ (fun a b => b.1 = a.1 ∧
      (∀ n v, (cachedCondTemplate
          [("condZ", Value.vint 0), ("condS", Value.vstr "yes")]).hasConditionSection
          a.2 = true →
        lookupKey CONDITION a.2 = some (.vstr n) →
        lookupKey n [("condZ", Value.vint 0), ("condS", Value.vstr "yes")] = some v →
        lookupKey OUTPUT_CONDITION b.2 = some v ∧
        (v.truthy = false → lookupKey OUTPUT_VALUE b.2 = some .vnone) ∧
        (v.truthy = true → lookupKey OUTPUT_VALUE b.2 = lookupKey OUTPUT_VALUE a.2)))
      [("o1", [("value", Value.vstr "x"), ("condition", Value.vstr "condZ")]),
       ("o2", [("value", Value.vstr "y"), ("condition", Value.vstr "condS")])]
      [("o1", [("value", Value.vnone), ("condition", Value.vint 0)]),
       ("o2", [("value", Value.vstr "y"), ("condition", Value.vstr "yes")])] :=
  ⟨rfl, parse_outputs_conditions_truthiness
    (cachedCondTemplate [("condZ", Value.vint 0), ("condS", Value.vstr "yes")]) 0
    [("o1", [("value", Value.vstr "x"), ("condition", Value.vstr "condZ")]),
     ("o2", [("value", Value.vstr "y"), ("condition", Value.vstr "condS")])]
    [("o1", [("value", Value.vnone), ("condition", Value.vint 0)]),
     ("o2", [("value", Value.vstr "y"), ("condition", Value.vstr "yes")])]
    [("condZ", Value.vint 0), ("condS", Value.vstr "yes")]
    (cachedCondTemplate [("condZ", Value.vint 0), ("condS", Value.vstr "yes")])
    rfl rfl⟩

theorem lookupRef_append_lt (r n : Nat) (s : AList) (l : List (Nat × AList))
    (h : r ≠ n) : lookupRef r (l ++ [(n, s)]) = lookupRef r l := by
  induction l with
  | nil => simp [lookupRef, Ne.symm h]
  | cons a rest ih =>
    obtain ⟨r', s'⟩ := a
    by_cases hr : r' = r
    · simp [lookupRef, hr]
    · simp [lookupRef, hr, ih]

theorem lookupRef_setRef_ne (r r' : Nat) (s : AList) (l : List (Nat × AList))
    (h : r' ≠ r) : lookupRef r' (setRef r s l) = lookupRef r' l := by
  induction l with
  | nil => simp [setRef, lookupRef, Ne.symm h]
  | cons a rest ih =>
    obtain ⟨r₀, s₀⟩ := a
    by_cases hr : r₀ = r
    · subst hr
      simp [setRef, lookupRef, Ne.symm h]
    · simp [setRef, hr, lookupRef, ih]

theorem deepcopyOutputs_spec :
    ∀ (outs : List (String × Nat)) (h : Heap) (outs' : List (String × Nat)) (h' : Heap),
    deepcopyOutputs h outs = (outs', h') →
    h.next ≤ h'.next ∧
    (∀ r, r < h.next → h'.lookup r = h.lookup r) ∧
    (∀ r ∈ outs'.map Prod.snd, h.next ≤ r ∧ r < h'.next) ∧
    outs'.map Prod.fst = outs.map Prod.fst := by
  intro outs
  induction outs with
  | nil =>
    intro h outs' h' heq
    simp only [deepcopyOutputs] at heq
    rw [Prod.mk.injEq] at heq
    obtain ⟨h1, h2⟩ := heq
    subst h1
    subst h2
    exact ⟨le_refl _, fun r _ => rfl, by simp, rfl⟩
  | cons a rest ih =>
    intro h outs' h' heq
    obtain ⟨key, r⟩ := a
    rcases hdc : deepcopyOutputs ⟨h.cells ++ [(h.next, (h.lookup r).getD [])], h.next + 1⟩
        rest with ⟨rest', h2⟩
    simp only [deepcopyOutputs, Heap.alloc, hdc] at heq
    rw [Prod.mk.injEq] at heq
    obtain ⟨h1, h2'⟩ := heq
    subst h1
    subst h2'
    obtain ⟨ihle, ihpres, ihrefs, ihkeys⟩ := ih _ rest' _ hdc
    refine ⟨?_, ?_, ?_, ?_⟩
    · exact le_trans (Nat.le_succ _) ihle
    · intro r0 hr0
      rw [ihpres r0 (lt_trans hr0 (Nat.lt_succ_self _))]
      show lookupRef r0 (h.cells ++ [(h.next, (h.lookup r).getD [])]) = lookupRef r0 h.cells
      exact lookupRef_append_lt r0 h.next _ h.cells (Nat.ne_of_lt hr0)
    · intro r0 hr0
      rcases List.mem_map.mp hr0 with ⟨⟨k0, v0⟩, hmem, hv0⟩
      rcases List.mem_cons.mp hmem with hmem | hmem
      · cases hmem
        subst hv0
        exact ⟨le_refl _, Nat.lt_of_succ_le ihle⟩
      · have h0 := ihrefs r0 (List.mem_map.mpr ⟨(k0, v0), hmem, hv0⟩)
        exact ⟨le_trans (Nat.le_succ _) h0.1, h0.2⟩
    · simpa using ihkeys

theorem parseOutputsGoHeap_frame {Stack : Type} (stack : Stack) (lo : Nat) :
    ∀ (l : List (String × Nat)) (t : Template Stack) (h : Heap)
      (res : Except HeatError Unit) (h' : Heap) (t' : Template Stack),
    (∀ r ∈ l.map Prod.snd, lo ≤ r) →
    parseOutputsGoHeap stack t h l = (res, h', t') →
    ∀ r, r < lo → h'.lookup r = h.lookup r := by
  intro l
  induction l with
  | nil =>
    intro t h res h' t' _ heq r hr
    simp only [parseOutputsGoHeap] at heq
    injection heq with h1 heq2
    injection heq2 with h2 h3
    subst h2
    rfl
  | cons a rest ih =>
    intro t h res h' t' hl heq r hr
    obtain ⟨key, r0⟩ := a
    have hlo : lo ≤ r0 := hl r0 (by simp)
    have hlrest : ∀ r1 ∈ rest.map Prod.snd, lo ≤ r1 := by
      intro r1 hr1
      exact hl r1 (by simp [hr1])
    simp only [parseOutputsGoHeap] at heq
    cases hcs : t.hasConditionSection ((h.lookup r0).getD []) with
    | false =>
      rw [hcs] at heq
      simp only [Bool.false_eq_true, if_false] at heq
      exact ih t h res h' t' hlrest heq r hr
    | true =>
      rw [hcs] at heq
      simp only [if_true] at heq
      rcases hg : get_output_condition t stack ((h.lookup r0).getD []) key with ⟨g, t₁⟩
      rw [hg] at heq
      cases g with
      | error e =>
        dsimp only at heq
        injection heq with h1 heq2
        injection heq2 with h2 h3
        subst h2
        rfl
      | ok cd =>
        dsimp only at heq
        have := ih t₁ _ res h' t' hlrest heq r hr
        rw [this]
        show lookupRef r (setRef r0 _ h.cells) = lookupRef r h.cells
        exact lookupRef_setRef_ne r0 r _ h.cells (Nat.ne_of_lt (lt_of_lt_of_le hr hlo))

/-- C7: `parse_outputs_conditions` deep-clones the outputs mapping before
transforming: in the object-store model, every snippet object reachable from
the input is left byte-for-byte unchanged after the call (also when the call
fails), and on success the returned mapping has the input's keys but shares
no snippet object with the input. -/
theorem parse_outputs_conditions_heap_frame {Stack : Type} (t : Template Stack)
    (h : Heap) (outs : List (String × Nat)) (stack : Stack)
    (res : Except HeatError (List (String × Nat))) (h' : Heap) (t' : Template Stack)
    (houts : ∀ r ∈ outs.map Prod.snd, r < h.next)
    (hres : parse_outputs_conditions_heap t h outs stack = (res, h', t')) :
    (∀ r, r < h.next → h'.lookup r = h.lookup r) ∧
    (∀ outs', res = .ok outs' →
      outs'.map Prod.fst = outs.map Prod.fst ∧
      ∀ r ∈ outs'.map Prod.snd, r ∉ outs.map Prod.snd) := by
  rcases hdc : deepcopyOutputs h outs with ⟨copy, h1⟩
  obtain ⟨hle, hpres, hrefs, hkeys⟩ := deepcopyOutputs_spec outs h copy h1 hdc
  simp only [parse_outputs_conditions_heap, hdc] at hres
  rcases hgo : parseOutputsGoHeap stack t h1 copy with ⟨g, h2, t₂⟩
  rw [hgo] at hres
  have hframe := parseOutputsGoHeap_frame stack h.next copy t h1 g h2 t₂
    (fun r hr => (hrefs r hr).1) hgo
  cases g with
  | ok u =>
    cases u
    dsimp only at hres
    injection hres with h1' hres2
    injection hres2 with h2' h3'
    subst h1'
    subst h2'
    constructor
    · intro r hr
      rw [hframe r hr, hpres r hr]
    · intro outs' ho
      injection ho with ho
      subst ho
      refine ⟨hkeys, ?_⟩
      intro r hr hmem
      have hge := (hrefs r hr).1
      have hlt := houts r hmem
      omega
  | error e =>
    dsimp only at hres
    injection hres with h1' hres2
    injection hres2 with h2' h3'
    subst h1'
    subst h2'
    constructor
    · intro r hr
      rw [hframe r hr, hpres r hr]
    · intro outs' ho
      exact Except.noConfusion ho

/-- C7 witness: one output whose condition resolves to `False`; the call
nulls the copied snippet's value in the store while the original object at
reference 0 is untouched, and the result references only the fresh object
1. -/
theorem parse_outputs_conditions_heap_frame_witness :
    (∀ r ∈ sampleOuts.map Prod.snd, r < sampleHeap.next) ∧
    ((∀ r, r < sampleHeap.next →
        Heap.lookup ⟨[(0, [("value", Value.vstr "x"), ("condition", Value.vstr "condA")]),
          (1, [("value", Value.vnone), ("condition", Value.vbool false)])], 2⟩ r =
          sampleHeap.lookup r) ∧
      (∀ outs', (Except.ok [("out1", 1)] :
          Except HeatError (List (String × Nat))) = .ok outs' →
        outs'.map Prod.fst = sampleOuts.map Prod.fst ∧
        ∀ r ∈ outs'.map Prod.snd, r ∉ sampleOuts.map Prod.snd)) :=
  ⟨by decide, parse_outputs_conditions_heap_frame
    (cachedCondTemplate [("condA", Value.vbool false)]) sampleHeap sampleOuts 0
    (.ok [("out1", 1)])
    ⟨[(0, [("value", Value.vstr "x"), ("condition", Value.vstr "condA")]),
      (1, [("value", Value.vnone), ("condition", Value.vbool false)])], 2⟩
    (cachedCondTemplate [("condA", Value.vbool false)])
    (by decide) rfl⟩

end Heat
